import Mathlib

/-!
Verification of the srebench scoring subsystem (`src/eval_pipeline/result_comparator.py`
and `src/eval_pipeline/comparison_utils.py`).

The Python functions operate on dynamically typed dictionaries; we embed the
relevant fragment of Python values as the inductive type `PyVal` (None,
strings, lists, dicts).  Python exceptions (`AttributeError` from calling
`.get`/`.strip` on a value of the wrong type, `IndexError` from `del`) are
modelled with `Except String`: `.error` marks a raised exception and `.ok` a
normal return.  Floating point arithmetic is idealised as real arithmetic
(`ℝ`); the purely discrete causal-graph score is computed in `ℚ`.
-/

/-- The fragment of Python values handled by the scoring subsystem: `None`,
strings, lists and string-keyed dictionaries (modelled as association lists,
looked up at the first matching key). -/
inductive PyVal where
  | none : PyVal
  | str : String → PyVal
  | list : List PyVal → PyVal
  | dict : List (String × PyVal) → PyVal

mutual

/-- Structural (Python `==`) equality test on `PyVal`. -/
def PyVal.beq : PyVal → PyVal → Bool
  | .none, .none => true
  | .str a, .str b => a == b
  | .list xs, .list ys => PyVal.beqList xs ys
  | .dict xs, .dict ys => PyVal.beqDict xs ys
  | _, _ => false

/-- Pointwise equality test on lists of `PyVal`. -/
def PyVal.beqList : List PyVal → List PyVal → Bool
  | [], [] => true
  | x :: xs, y :: ys => PyVal.beq x y && PyVal.beqList xs ys
  | _, _ => false

/-- Pointwise equality test on association lists of `PyVal`. -/
def PyVal.beqDict : List (String × PyVal) → List (String × PyVal) → Bool
  | [], [] => true
  | (k, v) :: xs, (k2, v2) :: ys => k == k2 && PyVal.beq v v2 && PyVal.beqDict xs ys
  | _, _ => false

end

mutual

theorem PyVal.beq_iff : ∀ a b : PyVal, PyVal.beq a b = true ↔ a = b
  | .none, .none => by simp [PyVal.beq]
  | .none, .str _ => by simp [PyVal.beq]
  | .none, .list _ => by simp [PyVal.beq]
  | .none, .dict _ => by simp [PyVal.beq]
  | .str _, .none => by simp [PyVal.beq]
  | .str _, .str _ => by simp [PyVal.beq]
  | .str _, .list _ => by simp [PyVal.beq]
  | .str _, .dict _ => by simp [PyVal.beq]
  | .list _, .none => by simp [PyVal.beq]
  | .list _, .str _ => by simp [PyVal.beq]
  | .list xs, .list ys => by simp [PyVal.beq, PyVal.beqList_iff xs ys]
  | .list _, .dict _ => by simp [PyVal.beq]
  | .dict _, .none => by simp [PyVal.beq]
  | .dict _, .str _ => by simp [PyVal.beq]
  | .dict _, .list _ => by simp [PyVal.beq]
  | .dict xs, .dict ys => by simp [PyVal.beq, PyVal.beqDict_iff xs ys]

theorem PyVal.beqList_iff : ∀ a b : List PyVal, PyVal.beqList a b = true ↔ a = b
  | [], [] => by simp [PyVal.beqList]
  | [], _ :: _ => by simp [PyVal.beqList]
  | _ :: _, [] => by simp [PyVal.beqList]
  | x :: xs, y :: ys => by
      simp [PyVal.beqList, PyVal.beq_iff x y, PyVal.beqList_iff xs ys]

theorem PyVal.beqDict_iff : ∀ a b : List (String × PyVal), PyVal.beqDict a b = true ↔ a = b
  | [], [] => by simp [PyVal.beqDict]
  | [], _ :: _ => by simp [PyVal.beqDict]
  | _ :: _, [] => by simp [PyVal.beqDict]
  | (k, v) :: xs, (k2, v2) :: ys => by
      simp [PyVal.beqDict, PyVal.beq_iff v v2, PyVal.beqDict_iff xs ys]

end

instance : DecidableEq PyVal := fun a b =>
  decidable_of_iff (PyVal.beq a b = true) (PyVal.beq_iff a b)

/-- Python truthiness of a value (`bool(v)`): `None`, the empty string, the
empty list and the empty dict are falsy, everything else in our fragment is
truthy. -/
def PyVal.truthy : PyVal → Bool
  | .none => false
  | .str s => !(s == "")
  | .list xs => !xs.isEmpty
  | .dict kvs => !kvs.isEmpty

/-- First-match lookup in an association list (Python dict lookup). -/
def pyLookup : List (String × PyVal) → String → Option PyVal
  | [], _ => Option.none
  | (k, v) :: rest, key => if k = key then some v else pyLookup rest key

/-- Python `d.get(key, default)` on a dict. -/
def dictGetD (kvs : List (String × PyVal)) (key : String) (dflt : PyVal) : PyVal :=
  (pyLookup kvs key).getD dflt

/-- Python `d.get(key)` on a dict (missing key yields `None`). -/
def dictGet (kvs : List (String × PyVal)) (key : String) : PyVal :=
  dictGetD kvs key PyVal.none

/-- Python `v.get(key)` on an arbitrary value: raises `AttributeError` unless
`v` is a dict. -/
def PyVal.get : PyVal → String → Except String PyVal
  | .dict kvs, key => .ok (dictGet kvs key)
  | _, _ => .error "AttributeError"

/-- Python `s.strip()` is falsy exactly when every character of `s` is
whitespace (in particular when `s` is empty). -/
def strBlank (s : String) : Bool := s.data.all Char.isWhitespace

/-- Splits a character list into its maximal runs of characters satisfying
`p`, dropping the separators (auxiliary accumulator form; the accumulator
holds the current run reversed). -/
def splitRunsAux (p : Char → Bool) : List Char → List Char → List (List Char)
  | [], acc => if acc.isEmpty then [] else [acc.reverse]
  | c :: cs, acc =>
    if p c then splitRunsAux p cs (c :: acc)
    else if acc.isEmpty then splitRunsAux p cs []
    else acc.reverse :: splitRunsAux p cs []

/-- Splits a character list into its maximal runs of characters satisfying `p`. -/
def splitRuns (p : Char → Bool) (cs : List Char) : List (List Char) :=
  splitRunsAux p cs []

/-- Strict lexicographic order on character lists. -/
def lexLt : List Char → List Char → Bool
  | [], [] => false
  | [], _ :: _ => true
  | _ :: _, [] => false
  | a :: as, b :: bs => if a < b then true else if b < a then false else lexLt as bs

/-- Removes duplicate tokens, keeping the first occurrence of each. -/
def dedupTokens : List (List Char) → List (List Char)
  | [] => []
  | t :: ts => t :: (dedupTokens ts).filter (fun u => !(u == t))

/-- Inserts a token into a lexicographically sorted token list. -/
def insertTok (t : List Char) : List (List Char) → List (List Char)
  | [] => [t]
  | u :: us => if lexLt u t then u :: insertTok t us else t :: u :: us

/-- Insertion sort of a token list in lexicographic order. -/
def sortTokens : List (List Char) → List (List Char)
  | [] => []
  | t :: ts => insertTok t (sortTokens ts)

/-- Word tokens of a string as used by thefuzz's default processing: the
string is lowercased and split into maximal alphanumeric runs. -/
def fuzzTokens (s : String) : List (List Char) :=
  splitRuns Char.isAlphanum (s.data.map Char.toLower)

/-- The token set of a string (duplicates removed, sorted) as used by
`fuzz.token_set_ratio`. -/
def tokenSet (s : String) : List (List Char) :=
  sortTokens (dedupTokens (fuzzTokens s))

/-- Model of the external string-similarity primitive `fuzz.token_set_ratio`
of the thefuzz library, which is not part of this repository.  Both strings
are lowercased and split into sets of alphanumeric word tokens; the score is
0 when either token set is empty (the library's empty-input guard), 100 when
one token set is contained in the other (in the library the sorted
intersection then coincides with the shorter joined string, which yields a
perfect partial ratio), and otherwise a Dice-style overlap of the two token
sets scaled to 0..100.  The model preserves the properties of the primitive
the scorer relies on: integer range 0..100, robustness to word order and
duplicated words, and score 100 on token-set containment (hence on identical
non-degenerate strings). -/
def token_set_ratio (s1 s2 : String) : Int :=
  let t1 := tokenSet s1
  let t2 := tokenSet s2
  if t1.isEmpty || t2.isEmpty then 0
  else if (t1.filter (fun u => !(t2.contains u))).isEmpty
      || (t2.filter (fun u => !(t1.contains u))).isEmpty then 100
  else ((200 * (t1.filter (fun u => t2.contains u)).length) / (t1.length + t2.length) : Nat)

/-- Word characters of sklearn's default `token_pattern` (`\w` = alphanumeric
or underscore). -/
def sklearnWordChar (c : Char) : Bool := c.isAlphanum || c == '_'

/-- Tokenization performed by sklearn's `TfidfVectorizer` with default
settings: lowercase, then keep the maximal word-character runs of length at
least two (token pattern `\b\w\w+\b`). -/
def sklearnTokens (s : String) : List (List Char) :=
  (splitRuns sklearnWordChar (s.data.map Char.toLower)).filter (fun t => 2 ≤ t.length)

/-- The vocabulary extracted by `TfidfVectorizer().fit_transform([s1, s2])`:
all tokens of the two documents, without duplicates, sorted. -/
def vocabulary (s1 s2 : String) : List (List Char) :=
  sortTokens (dedupTokens (sklearnTokens s1 ++ sklearnTokens s2))

/-- Document frequency of a term over the two-document corpus `[s1, s2]`. -/
def docFreq (s1 s2 : String) (w : List Char) : Nat :=
  (if (sklearnTokens s1).contains w then 1 else 0)
    + (if (sklearnTokens s2).contains w then 1 else 0)

/-- Smoothed inverse document frequency used by `TfidfVectorizer` (defaults
`smooth_idf=True`): `ln((1 + n) / (1 + df)) + 1` with `n = 2` documents. -/
noncomputable def idfWeight (s1 s2 : String) (w : List Char) : ℝ :=
  Real.log ((1 + 2) / (1 + (docFreq s1 s2 w : ℝ))) + 1

/-- One row of the tf-idf matrix for document `doc` over the corpus
`[s1, s2]`: term count times idf, per vocabulary entry.  (The vectorizer's
final l2 row normalisation is omitted here because `cosine_similarity`
normalises the rows again, so it cancels in the similarity value.) -/
noncomputable def tfidfRow (doc s1 s2 : String) : List ℝ :=
  (vocabulary s1 s2).map (fun w => ((sklearnTokens doc).count w : ℝ) * idfWeight s1 s2 w)

/-- Dot product of two real vectors. -/
noncomputable def dotR (v w : List ℝ) : ℝ := (List.zipWith (fun a b => a * b) v w).sum

/-- `sklearn.metrics.pairwise.cosine_similarity` on two rows: the rows are
l2-normalised (a zero row staying zero) and multiplied, i.e. the cosine of
the two vectors with the convention that it is 0 when either vector is 0. -/
noncomputable def cosine_similarity (v w : List ℝ) : ℝ :=
  if Real.sqrt (dotR v v) = 0 ∨ Real.sqrt (dotR w w) = 0 then 0
  else dotR v w / (Real.sqrt (dotR v v) * Real.sqrt (dotR w w))

/-- The `try` block of `calculate_semantic_similarity` together with its
`except ValueError` handler: `TfidfVectorizer().fit_transform` raises
`ValueError` exactly when the extracted vocabulary is empty, in which case
the handler falls back to exact string equality; otherwise the two tf-idf
rows are compared by cosine similarity and the result is clamped to
`[0, 1]`.  (The dead defensive branch `vectors.shape[0] < 2` of the source is
kept: the matrix always has the two rows `[v1, v2]`.) -/
noncomputable def tfidfCosineScore (s1 s2 : String) : ℝ :=
  if (vocabulary s1 s2).isEmpty then
    if s1 = s2 then 1 else 0
  else
    let v1 := tfidfRow s1 s1 s2
    let v2 := tfidfRow s2 s1 s2
    if [v1, v2].length < 2 then
      if s1 = s2 then 1 else 0
    else
      max 0 (min 1 (cosine_similarity v1 v2))

/-- Embedding of `calculate_semantic_similarity(text1, text2)` from
`comparison_utils.py` on arbitrary Python values.  The guard
`if not text1 or not text1.strip() or not text2 or not text2.strip()` is
evaluated with Python's short-circuiting: truthiness is defined on every
value, but `.strip()` raises `AttributeError` when called on a truthy
non-string. -/
noncomputable def calculate_semantic_similarity (text1 text2 : PyVal) : Except String ℝ :=
  if !text1.truthy then .ok 0
  else
    match text1 with
    | PyVal.str s1 =>
      if strBlank s1 then .ok 0
      else if !text2.truthy then .ok 0
      else
        match text2 with
        | PyVal.str s2 =>
          if strBlank s2 then .ok 0
          else .ok (tfidfCosineScore s1 s2)
        | _ => .error "AttributeError"
    | _ => .error "AttributeError"

/-- Embedding of `compare_component(comp1, comp2)` from `comparison_utils.py`:
0.0 unless both values are dicts whose `kind` and `name` entries are equal
and whose `namespace` entries, when at least one is present (non-`None`),
are equal as well. -/
def compare_component (comp1 comp2 : PyVal) : ℝ :=
  match comp1, comp2 with
  | PyVal.dict kvs1, PyVal.dict kvs2 =>
    if dictGet kvs1 "kind" ≠ dictGet kvs2 "kind" ∨ dictGet kvs1 "name" ≠ dictGet kvs2 "name" then 0
    else
      let comp1_ns := dictGet kvs1 "namespace"
      let comp2_ns := dictGet kvs2 "namespace"
      if comp1_ns ≠ PyVal.none ∨ comp2_ns ≠ PyVal.none then
        if comp1_ns ≠ comp2_ns then 0 else 1
      else 1
  | _, _ => 0

/-- Embedding of the helper `_extract_labels` of `calculate_causal_graph_score`:
the labels of all node entries that are dicts with a string `label` whose
`strip()` is truthy; a non-dict graph or a non-list `nodes` entry yields the
empty list. -/
def extract_labels (graph : PyVal) : List String :=
  match graph with
  | PyVal.dict kvs =>
    match dictGet kvs "nodes" with
    | PyVal.list nodes =>
      nodes.filterMap (fun node =>
        match node with
        | PyVal.dict nkvs =>
          match dictGet nkvs "label" with
          | PyVal.str l => if !(strBlank l) then some l else Option.none
          | _ => Option.none
        | _ => Option.none)
    | _ => []
  | _ => []

/-- The fuzzy-match threshold `similarity_threshold = 80` of
`calculate_causal_graph_score`. -/
def similarity_threshold : Int := 80

/-- The inner loop of `calculate_causal_graph_score`: folds over the remaining
ground-truth labels (with `i` the index of the head), updating
`(best_match_score, best_match_index)` whenever the fuzzy score is strictly
greater than the current best. -/
def bestMatchAux (agent_label : String) : List String → Nat → Int × Int → Int × Int
  | [], _, best => best
  | gt_label :: rest, i, best =>
    let score := token_set_ratio agent_label gt_label
    bestMatchAux agent_label rest (i + 1) (if best.1 < score then (score, (i : Int)) else best)

/-- The inner loop of `calculate_causal_graph_score` started from the initial
state `best_match_score = -1`, `best_match_index = -1`. -/
def bestMatch (agent_label : String) (remaining : List String) : Int × Int :=
  bestMatchAux agent_label remaining 0 (-1, -1)

/-- Python `del  xs[i]` on a list: a valid non-negative index deletes that
position, a valid negative index counts from the end, anything else raises
`IndexError`. -/
def pyDel (xs : List String) (i : Int) : Except String (List String) :=
  if 0 ≤ i ∧ i < (xs.length : Int) then .ok (xs.eraseIdx i.toNat)
  else if -(xs.length : Int) ≤ i ∧ i < 0 then .ok (xs.eraseIdx (i + xs.length).toNat)
  else .error "IndexError"

/-- The outer loop of `calculate_causal_graph_score`: for each agent label in
order, find the best remaining ground-truth label; if its score reaches the
threshold, count a match and `del` that label from the remaining pool. -/
def greedyLoop : List String → Nat → List String → Except String Nat
  | [], match_count, _ => .ok match_count
  | agent_label :: rest, match_count, remaining_gt_labels =>
    let best := bestMatch agent_label remaining_gt_labels
    if similarity_threshold ≤ best.1 then
      match pyDel remaining_gt_labels best.2 with
      | .ok remaining2 => greedyLoop rest (match_count + 1) remaining2
      | .error e => .error e
    else greedyLoop rest match_count remaining_gt_labels

/-- Embedding of `calculate_causal_graph_score(graph1, graph2)` from
`comparison_utils.py`. -/
def calculate_causal_graph_score (graph1 graph2 : PyVal) : Except String ℚ :=
  let agent_labels := extract_labels graph1
  let gt_labels := extract_labels graph2
  if agent_labels.isEmpty && gt_labels.isEmpty then .ok 1
  else if agent_labels.isEmpty || gt_labels.isEmpty then .ok 0
  else
    match greedyLoop agent_labels 0 gt_labels with
    | .ok match_count =>
      let denominator := agent_labels.length + gt_labels.length
      .ok (if 0 < denominator then (2 * match_count : ℚ) / (denominator : ℚ) else 1)
    | .error e => .error e

/-- Is the value a Python dict (a "structured record")? -/
def PyVal.isDict : PyVal → Bool
  | .dict _ => true
  | _ => false

/-- The value is `None`, the empty string, or a whitespace-only string: the
degenerate text inputs the spec's TextSimilarity contract maps to 0.0. -/
def blankVal : PyVal → Bool
  | PyVal.none => true
  | PyVal.str s => strBlank s
  | _ => false

/-- The value is a string or `None`. -/
def strOrNone : PyVal → Bool
  | PyVal.none => true
  | PyVal.str _ => true
  | _ => false

/-- Well-shapedness of the `details` entry of a section dict: absent or a
string.  (A truthy non-string `details` value makes the Python scorer call
`.strip()` on it and raise `AttributeError`.) -/
def detailsOK (kvs : List (String × PyVal)) : Bool :=
  match pyLookup kvs "details" with
  | Option.none => true
  | some (PyVal.str _) => true
  | some _ => false

/-- Well-shapedness of one top-level section of an input to
`ResultComparator.compare`: the section is absent, or it is a dict whose
`details` entry is absent or a string. -/
def sectionOK (out : List (String × PyVal)) (key : String) : Bool :=
  match pyLookup out key with
  | Option.none => true
  | some (PyVal.dict kvs) => detailsOK kvs
  | some _ => false

/-- Well-shapedness of an input to `ResultComparator.compare`: its
`root_cause` and `resolution` sections are well shaped.  (The `causal_graph`
section may be arbitrary: `calculate_causal_graph_score` is total.) -/
def wellShaped (out : List (String × PyVal)) : Bool :=
  sectionOK out "root_cause" && sectionOK out "resolution"

/-- Specification reference for C3 (spec §4.2 Step 1), written from the
spec's words: extract from each input the label of every node entry that is
a structured record with a non-empty, non-whitespace string label; an
invalid or missing node list yields the empty label list, and extraction
follows the input list order. -/
def spec_labels (graph : PyVal) : List String :=
  match graph with
  | PyVal.dict kvs =>
    match dictGet kvs "nodes" with
    | PyVal.list nodes =>
      nodes.filterMap (fun node =>
        match node with
        | PyVal.dict nkvs =>
          match dictGet nkvs "label" with
          | PyVal.str l => if l.data.any (fun c => !c.isWhitespace) then some l else Option.none
          | _ => Option.none
        | _ => Option.none)
    | _ => []
  | _ => []

/-- Specification reference for C3 (spec §4.2 Step 3): the value of the
highest fuzzy ratio over a pool together with its index, the earliest index
winning ties (`Option.none` for the empty pool). -/
def spec_best (f : String → Int) : List String → Option (Nat × Int)
  | [] => Option.none
  | x :: xs =>
    match spec_best f xs with
    | Option.none => some (0, f x)
    | some (j, v) => if v ≤ f x then some (0, f x) else some (j + 1, v)

/-- Specification reference for C3 (spec §4.2 Step 3): for each agent label
in list order, find the remaining ground-truth label with the highest
token-set fuzzy ratio (earliest index wins ties); count a match and
permanently remove that ground-truth label iff the best ratio is at least
80. -/
def spec_greedy : List String → List String → Nat
  | [], _ => 0
  | a :: rest, pool =>
    match spec_best (token_set_ratio a) pool with
    | Option.none => spec_greedy rest pool
    | some (j, v) =>
      if 80 ≤ v then spec_greedy rest (pool.eraseIdx j) + 1
      else spec_greedy rest pool

/-- Specification reference for C3 (spec §4.2, assembled): empty-set policy,
greedy fuzzy assignment, and the Dice-style score `2 * matches / (|A| + |B|)`. -/
def spec_graph_score (graph1 graph2 : PyVal) : ℚ :=
  let a := spec_labels graph1
  let b := spec_labels graph2
  if a.isEmpty ∧ b.isEmpty then 1
  else if a.isEmpty ∨ b.isEmpty then 0
  else (2 * (spec_greedy a b : ℚ)) / ((a.length + b.length : Nat) : ℚ)

/-- The score dictionary returned by `ResultComparator.compare`. -/
structure ScoreMap where
  rca_root_cause_score : ℝ
  rca_causal_graph_score : ℝ
  resolution_correctness_score : ℝ

namespace ResultComparator

/-- Embedding of `ResultComparator._compare_root_cause(agent_rc, gt_rc)`.
Calling `.get` on a non-dict section raises `AttributeError` (modelled by the
catch-all branch); the weights are `type=0.2`, `resource_type=0.2`,
`component=0.3`, `details=0.3`. -/
noncomputable def compare_root_cause (agent_rc gt_rc : PyVal) : Except String ℝ :=
  match agent_rc, gt_rc with
  | PyVal.dict akvs, PyVal.dict gkvs =>
    let type_score : ℝ :=
      if dictGet akvs "type" = dictGet gkvs "type" ∧ dictGet akvs "type" ≠ PyVal.none
      then 1 else 0
    let resource_type_score : ℝ :=
      if dictGet akvs "resource_type" = dictGet gkvs "resource_type"
          ∧ dictGet akvs "resource_type" ≠ PyVal.none
      then 1 else 0
    let component_score : ℝ :=
      compare_component (dictGet akvs "component") (dictGet gkvs "component")
    match calculate_semantic_similarity (dictGetD akvs "details" (PyVal.str ""))
        (dictGetD gkvs "details" (PyVal.str "")) with
    | .ok details_score_rc =>
      .ok (0.2 * type_score + 0.2 * resource_type_score
            + 0.3 * component_score + 0.3 * details_score_rc)
    | .error e => .error e
  | _, _ => .error "AttributeError"

/-- Embedding of `ResultComparator._compare_resolution(agent_res, gt_res)`;
the weights are `action_type=0.3`, `target_component=0.4`, `details=0.3`. -/
noncomputable def compare_resolution (agent_res gt_res : PyVal) : Except String ℝ :=
  match agent_res, gt_res with
  | PyVal.dict akvs, PyVal.dict gkvs =>
    let action_type_score : ℝ :=
      if dictGet akvs "action_type" = dictGet gkvs "action_type"
          ∧ dictGet akvs "action_type" ≠ PyVal.none
      then 1 else 0
    let target_component_score : ℝ :=
      compare_component (dictGet akvs "target_component") (dictGet gkvs "target_component")
    match calculate_semantic_similarity (dictGetD akvs "details" (PyVal.str ""))
        (dictGetD gkvs "details" (PyVal.str "")) with
    | .ok details_score_res =>
      .ok (0.3 * action_type_score + 0.4 * target_component_score + 0.3 * details_score_res)
    | .error e => .error e
  | _, _ => .error "AttributeError"

/-- Embedding of `ResultComparator._compare_causal_graph`. -/
def compare_causal_graph (agent_cg gt_cg : PyVal) : Except String ℚ :=
  calculate_causal_graph_score agent_cg gt_cg

/-- Embedding of `ResultComparator.compare(agent_output, ground_truth)`: the
three sections are extracted with default `{}`, the three scores are computed
(in source order, so the first exception propagates), and the score
dictionary is returned. -/
noncomputable def compare (agent_output ground_truth : List (String × PyVal)) :
    Except String ScoreMap :=
  let agent_rc := dictGetD agent_output "root_cause" (PyVal.dict [])
  let gt_rc := dictGetD ground_truth "root_cause" (PyVal.dict [])
  let agent_res := dictGetD agent_output "resolution" (PyVal.dict [])
  let gt_res := dictGetD ground_truth "resolution" (PyVal.dict [])
  let agent_cg := dictGetD agent_output "causal_graph" (PyVal.dict [])
  let gt_cg := dictGetD ground_truth "causal_graph" (PyVal.dict [])
  match compare_root_cause agent_rc gt_rc with
  | .error e => .error e
  | .ok rca_root_cause_score =>
    match compare_resolution agent_res gt_res with
    | .error e => .error e
    | .ok resolution_correctness_score =>
      match compare_causal_graph agent_cg gt_cg with
      | .error e => .error e
      | .ok rca_causal_graph_score =>
        .ok ⟨rca_root_cause_score, (rca_causal_graph_score : ℝ), resolution_correctness_score⟩

end ResultComparator

theorem insertTok_perm (t : List Char) :
    ∀ ts, List.Perm (insertTok t ts) (t :: ts) := by
  intro ts
  induction ts with
  | nil => simp [insertTok]
  | cons u us ih =>
    simp only [insertTok]
    by_cases h : lexLt u t
    · simp only [h, if_pos]
      exact (List.Perm.cons u ih).trans (List.Perm.swap t u us)
    · simp [h]

theorem sortTokens_perm : ∀ ts, List.Perm (sortTokens ts) ts := by
  intro ts
  induction ts with
  | nil => simp [sortTokens]
  | cons t ts ih =>
    simp only [sortTokens]
    exact (insertTok_perm t (sortTokens ts)).trans (List.Perm.cons t ih)

theorem mem_dedupTokens {u : List Char} : ∀ ts, u ∈ dedupTokens ts ↔ u ∈ ts := by
  intro ts
  induction ts with
  | nil => simp [dedupTokens]
  | cons t ts ih =>
    simp only [dedupTokens, List.mem_cons, List.mem_filter]
    constructor
    · rintro (rfl | ⟨h, _⟩)
      · exact Or.inl rfl
      · exact Or.inr (ih.mp h)
    · rintro (rfl | h)
      · exact Or.inl rfl
      · by_cases hu : u = t
        · exact Or.inl hu
        · exact Or.inr ⟨ih.mpr h, by simp [hu]⟩

theorem dedupTokens_nodup : ∀ ts, (dedupTokens ts).Nodup := by
  intro ts
  induction ts with
  | nil => simp [dedupTokens]
  | cons t ts ih =>
    simp only [dedupTokens]
    refine List.Nodup.cons ?_ (ih.filter _)
    intro hmem
    rcases List.mem_filter.mp hmem with ⟨_, hne⟩
    simp at hne

theorem tokenSet_nodup (s : String) : (tokenSet s).Nodup :=
  ((sortTokens_perm (dedupTokens (fuzzTokens s))).nodup_iff).mpr (dedupTokens_nodup _)

theorem token_set_ratio_nonneg (s1 s2 : String) : 0 ≤ token_set_ratio s1 s2 := by
  simp only [token_set_ratio]
  split
  · norm_num
  · split
    · norm_num
    · positivity

theorem token_set_ratio_le_100 (s1 s2 : String) : token_set_ratio s1 s2 ≤ 100 := by
  simp only [token_set_ratio]
  split
  · norm_num
  · rename_i hne
    split
    · norm_num
    · set t1 := tokenSet s1 with ht1
      set t2 := tokenSet s2 with ht2
      have hnodup : (t1.filter (fun u => t2.contains u)).Nodup :=
        (tokenSet_nodup s1).filter _
      have hsub : (t1.filter (fun u => t2.contains u)) ⊆ t2 := by
        intro u hu
        rcases List.mem_filter.mp hu with ⟨_, hc⟩
        exact List.mem_of_elem_eq_true hc
      have hlen2 : (t1.filter (fun u => t2.contains u)).length ≤ t2.length :=
        (hnodup.subperm hsub).length_le
      have hlen1 : (t1.filter (fun u => t2.contains u)).length ≤ t1.length :=
        List.length_filter_le _ _
      have hpos : 0 < t1.length + t2.length := by
        have h1 : ¬t1.isEmpty = true := by
          intro h
          simp [h] at hne
        have : t1 ≠ [] := by
          intro h
          exact h1 (by simp [h])
        have := List.length_pos.mpr this
        omega
      have hle : 200 * (t1.filter (fun u => t2.contains u)).length
          ≤ 100 * (t1.length + t2.length) := by omega
      have hdiv : (200 * (t1.filter (fun u => t2.contains u)).length) / (t1.length + t2.length)
          ≤ 100 := by
        have hdd := Nat.div_le_div_right (c := t1.length + t2.length) hle
        rw [Nat.mul_comm 100 (t1.length + t2.length)] at hdd
        rwa [Nat.mul_div_cancel_left 100 hpos] at hdd
      exact_mod_cast hdiv

theorem token_set_ratio_self {s : String} (h : tokenSet s ≠ []) :
    token_set_ratio s s = 100 := by
  simp only [token_set_ratio]
  have hfilter : (tokenSet s).filter (fun u => !(tokenSet s).contains u) = [] := by
    apply List.filter_eq_nil_iff.mpr
    intro u hu
    simp [hu]
  simp [h, hfilter]

theorem spec_best_cons_some (f : String → Int) (x : String) (xs : List String) :
    ∃ j v, spec_best f (x :: xs) = some (j, v) := by
  simp only [spec_best]
  cases spec_best f xs with
  | none => exact ⟨0, f x, rfl⟩
  | some p =>
    obtain ⟨j, v⟩ := p
    by_cases hle : v ≤ f x
    · exact ⟨0, f x, by simp [hle]⟩
    · exact ⟨j + 1, v, by simp [hle]⟩

theorem spec_best_index_lt {f : String → Int} :
    ∀ {xs : List String} {j : Nat} {v : Int}, spec_best f xs = some (j, v) → j < xs.length := by
  intro xs
  induction xs with
  | nil => intro j v h; simp [spec_best] at h
  | cons x xs ih =>
    intro j v h
    simp only [spec_best] at h
    cases hxs : spec_best f xs with
    | none =>
      rw [hxs] at h
      obtain ⟨h1, h2⟩ := Prod.mk.inj (Option.some.inj h)
      simp [← h1]
    | some p =>
      obtain ⟨j0, v0⟩ := p
      rw [hxs] at h
      dsimp only at h
      by_cases hle : v0 ≤ f x
      · rw [if_pos hle] at h
        obtain ⟨h1, h2⟩ := Prod.mk.inj (Option.some.inj h)
        simp [← h1]
      · rw [if_neg hle] at h
        obtain ⟨h1, h2⟩ := Prod.mk.inj (Option.some.inj h)
        have := ih hxs
        simp only [List.length_cons]
        omega

theorem spec_best_mem {f : String → Int} :
    ∀ {xs : List String} {j : Nat} {v : Int}, spec_best f xs = some (j, v) →
      ∃ x ∈ xs, v = f x := by
  intro xs
  induction xs with
  | nil => intro j v h; simp [spec_best] at h
  | cons x xs ih =>
    intro j v h
    simp only [spec_best] at h
    cases hxs : spec_best f xs with
    | none =>
      rw [hxs] at h
      obtain ⟨h1, h2⟩ := Prod.mk.inj (Option.some.inj h)
      exact ⟨x, List.mem_cons_self x xs, h2.symm⟩
    | some p =>
      obtain ⟨j0, v0⟩ := p
      rw [hxs] at h
      dsimp only at h
      by_cases hle : v0 ≤ f x
      · rw [if_pos hle] at h
        obtain ⟨h1, h2⟩ := Prod.mk.inj (Option.some.inj h)
        exact ⟨x, List.mem_cons_self x xs, h2.symm⟩
      · rw [if_neg hle] at h
        obtain ⟨h1, h2⟩ := Prod.mk.inj (Option.some.inj h)
        obtain ⟨y, hy, hv⟩ := ih hxs
        exact ⟨y, List.mem_cons_of_mem x hy, h2 ▸ hv⟩

theorem bestMatchAux_spec (l : String) :
    ∀ (rest : List String) (i0 : Nat) (b : Int × Int),
      bestMatchAux l rest i0 b =
        match spec_best (token_set_ratio l) rest with
        | Option.none => b
        | some (j, v) => if b.1 < v then (v, ((i0 + j : Nat) : Int)) else b := by
  intro rest
  induction rest with
  | nil => intro i0 b; simp [bestMatchAux, spec_best]
  | cons x xs ih =>
    intro i0 b
    simp only [bestMatchAux]
    rw [ih (i0 + 1)]
    simp only [spec_best]
    cases hxs : spec_best (token_set_ratio l) xs with
    | none =>
      cases xs with
      | nil =>
        simp only [spec_best]
        split_ifs <;> simp
      | cons y ys =>
        obtain ⟨j, v, hs⟩ := spec_best_cons_some (token_set_ratio l) y ys
        rw [hs] at hxs
        exact absurd hxs (by simp)
    | some p =>
      obtain ⟨j, v⟩ := p
      dsimp only
      by_cases hvx : v ≤ token_set_ratio l x
      · rw [if_pos hvx]
        dsimp only
        split_ifs with h1 h2 h3 h3 <;> (try dsimp only at *) <;>
          first
            | rfl
            | (exfalso; omega)
            | (simp only [Prod.mk.injEq, eq_self_iff_true, true_and]; omega)
      · rw [if_neg hvx]
        dsimp only
        split_ifs with h1 h2 h3 h3 <;> (try dsimp only at *) <;>
          first
            | rfl
            | (exfalso; omega)
            | (simp only [Prod.mk.injEq, eq_self_iff_true, true_and]; omega)

theorem bestMatch_spec (l : String) (remaining : List String) :
    bestMatch l remaining =
      match spec_best (token_set_ratio l) remaining with
      | Option.none => (-1, -1)
      | some (j, v) => (v, (j : Int)) := by
  unfold bestMatch
  rw [bestMatchAux_spec]
  cases h : spec_best (token_set_ratio l) remaining with
  | none => rfl
  | some p =>
    obtain ⟨j, v⟩ := p
    obtain ⟨x, hx, rfl⟩ := spec_best_mem h
    have h0 : (0:Int) ≤ token_set_ratio l x := token_set_ratio_nonneg l x
    dsimp only
    rw [if_pos (by omega)]
    simp

theorem pyDel_ok_of_lt {xs : List String} {j : Nat} (h : j < xs.length) :
    pyDel xs (j : Int) = .ok (xs.eraseIdx j) := by
  unfold pyDel
  rw [if_pos (by omega)]
  simp

theorem greedyLoop_eq_spec : ∀ (ls : List String) (c : Nat) (pool : List String),
    greedyLoop ls c pool = .ok (c + spec_greedy ls pool) := by
  intro ls
  induction ls with
  | nil => intro c pool; simp [greedyLoop, spec_greedy]
  | cons a rest ih =>
    intro c pool
    simp only [greedyLoop, spec_greedy]
    rw [bestMatch_spec]
    cases h : spec_best (token_set_ratio a) pool with
    | none =>
      dsimp only
      rw [if_neg (by simp [similarity_threshold])]
      exact ih c pool
    | some p =>
      obtain ⟨j, v⟩ := p
      dsimp only
      by_cases hv : (80:Int) ≤ v
      · rw [if_pos (by simpa [similarity_threshold] using hv)]
        have hj := spec_best_index_lt h
        rw [pyDel_ok_of_lt hj]
        dsimp only
        rw [ih (c+1)]
        rw [if_pos hv]
        congr 1
        omega
      · rw [if_neg (by simpa [similarity_threshold] using hv)]
        rw [if_neg hv]
        exact ih c pool

theorem strBlank_not_eq_any (l : String) :
    (!(strBlank l)) = l.data.any (fun c => !c.isWhitespace) := by
  unfold strBlank
  induction l.data with
  | nil => rfl
  | cons c cs ih =>
    simp only [List.all_cons, List.any_cons, Bool.not_and]
    rw [ih]

theorem extract_labels_eq_spec (g : PyVal) : extract_labels g = spec_labels g := by
  unfold extract_labels spec_labels
  simp only [strBlank_not_eq_any]

theorem causal_graph_score_eq_spec (g1 g2 : PyVal) :
    calculate_causal_graph_score g1 g2 = .ok (spec_graph_score g1 g2) := by
  unfold calculate_causal_graph_score spec_graph_score
  rw [← extract_labels_eq_spec g1, ← extract_labels_eq_spec g2]
  by_cases h1 : (extract_labels g1).isEmpty
  · by_cases h2 : (extract_labels g2).isEmpty
    · simp [h1, h2]
    · simp [h1, h2]
  · by_cases h2 : (extract_labels g2).isEmpty
    · simp [h1, h2]
    · simp only [h1, h2, Bool.and_false, Bool.false_and, Bool.or_false, if_false]
      rw [greedyLoop_eq_spec]
      have hpos : 0 < (extract_labels g1).length + (extract_labels g2).length := by
        have : extract_labels g1 ≠ [] := by
          intro h
          exact h1 (by simp [h])
        have := List.length_pos.mpr this
        omega
      simp [h1, h2, hpos]

theorem char_toNat_ofNat {n : Nat} (h : n.isValidChar) : (Char.ofNat n).toNat = n := by
  unfold Char.ofNat
  rw [dif_pos h]
  rfl

theorem toLower_isAlphanum {c : Char} (h : c.isAlphanum = true) : (c.toLower).isAlphanum = true := by
  unfold Char.toLower
  dsimp only
  by_cases hc : c.toNat ≥ 65 ∧ c.toNat ≤ 90
  · rw [if_pos hc]
    have hv : (c.toNat + 32).isValidChar := Or.inl (by omega)
    have ht : (Char.ofNat (c.toNat + 32)).toNat = c.toNat + 32 := char_toNat_ofNat hv
    unfold Char.isAlphanum Char.isAlpha Char.isLower Char.isUpper Char.isDigit
    simp only [Bool.or_eq_true, Bool.and_eq_true, decide_eq_true_eq]
    left; right
    have h1 : (97 : Nat) ≤ (Char.ofNat (c.toNat + 32)).toNat := by omega
    have h2 : (Char.ofNat (c.toNat + 32)).toNat ≤ 122 := by omega
    unfold Char.toNat at h1 h2
    constructor
    · rw [ge_iff_le, UInt32.le_def, BitVec.le_def]
      exact h1
    · rw [UInt32.le_def, BitVec.le_def]
      exact h2
  · rw [if_neg hc]
    exact h

theorem splitRunsAux_ne_nil (p : Char → Bool) :
    ∀ (cs : List Char) (acc : List Char),
      (acc ≠ [] ∨ ∃ c ∈ cs, p c = true) → splitRunsAux p cs acc ≠ [] := by
  intro cs
  induction cs with
  | nil =>
    intro acc h
    rcases h with h | ⟨c, hc, _⟩
    · simp only [splitRunsAux]
      rw [if_neg (by simpa using h)]
      simp
    · simp at hc
  | cons c cs ih =>
    intro acc h
    simp only [splitRunsAux]
    by_cases hp : p c = true
    · rw [if_pos hp]
      exact ih (c :: acc) (Or.inl (by simp))
    · rw [if_neg hp]
      have hrest : acc ≠ [] ∨ ∃ d ∈ cs, p d = true := by
        rcases h with h | ⟨d, hd, hpd⟩
        · exact Or.inl h
        · rcases List.mem_cons.mp hd with rfl | hd2
          · exact absurd hpd hp
          · exact Or.inr ⟨d, hd2, hpd⟩
      by_cases hacc : acc.isEmpty
      · rw [if_pos hacc]
        rcases hrest with h | h
        · exact absurd (List.isEmpty_iff.mp hacc) h
        · exact ih [] (Or.inr h)
      · rw [if_neg hacc]
        simp

theorem fuzzTokens_ne_nil {s : String} (h : s.data.any Char.isAlphanum = true) :
    fuzzTokens s ≠ [] := by
  unfold fuzzTokens splitRuns
  obtain ⟨c, hc, hp⟩ := List.any_eq_true.mp h
  exact splitRunsAux_ne_nil _ _ []
    (Or.inr ⟨c.toLower, List.mem_map_of_mem Char.toLower hc, toLower_isAlphanum hp⟩)

theorem dedupTokens_ne_nil {ts : List (List Char)} (h : ts ≠ []) : dedupTokens ts ≠ [] := by
  cases ts with
  | nil => exact absurd rfl h
  | cons t ts => simp [dedupTokens]

theorem sortTokens_ne_nil {ts : List (List Char)} (h : ts ≠ []) : sortTokens ts ≠ [] := by
  intro hnil
  have := (sortTokens_perm ts).length_eq
  rw [hnil] at this
  exact h (List.length_eq_zero.mp this.symm)

theorem tokenSet_ne_nil {s : String} (h : s.data.any Char.isAlphanum = true) :
    tokenSet s ≠ [] :=
  sortTokens_ne_nil (dedupTokens_ne_nil (fuzzTokens_ne_nil h))

theorem bestMatchAux_keep_top (l : String) :
    ∀ (rest : List String) (i0 : Nat) (j0 : Int),
      bestMatchAux l rest i0 (100, j0) = (100, j0) := by
  intro rest i0 j0
  rw [bestMatchAux_spec]
  cases h : spec_best (token_set_ratio l) rest with
  | none => rfl
  | some p =>
    obtain ⟨j, v⟩ := p
    obtain ⟨x, hx, rfl⟩ := spec_best_mem h
    have := token_set_ratio_le_100 l x
    dsimp only
    rw [if_neg (by omega)]

theorem greedy_self : ∀ (ls : List String),
    (∀ l ∈ ls, token_set_ratio l l = 100) →
    ∀ c, greedyLoop ls c ls = .ok (c + ls.length) := by
  intro ls
  induction ls with
  | nil => intro _ c; simp [greedyLoop]
  | cons l rest ih =>
    intro hall c
    simp only [greedyLoop]
    have hbest : bestMatch l (l :: rest) = (100, 0) := by
      unfold bestMatch
      simp only [bestMatchAux]
      rw [hall l (List.mem_cons_self l rest)]
      norm_num
      exact bestMatchAux_keep_top l rest 1 0
    rw [hbest]
    rw [if_pos (by simp [similarity_threshold])]
    have hdel : pyDel (l :: rest) ((0 : Nat) : Int) = .ok ((l :: rest).eraseIdx 0) :=
      pyDel_ok_of_lt (by simp)
    simp only [List.eraseIdx] at hdel
    rw [show ((0 : Nat) : Int) = (0 : Int) from rfl] at hdel
    rw [hdel]
    dsimp only
    rw [ih (fun x hx => hall x (List.mem_cons_of_mem l hx)) (c + 1)]
    congr 1
    simp only [List.length_cons]
    omega

theorem graph_score_self {g : PyVal}
    (h : ∀ l ∈ extract_labels g, l.data.any Char.isAlphanum = true) :
    calculate_causal_graph_score g g = .ok 1 := by
  unfold calculate_causal_graph_score
  by_cases he : (extract_labels g).isEmpty
  · simp [he]
  · rw [if_neg (by simp [he])]
    rw [if_neg (by simp [he])]
    have hall : ∀ l ∈ extract_labels g, token_set_ratio l l = 100 := fun l hl =>
      token_set_ratio_self (tokenSet_ne_nil (h l hl))
    rw [greedy_self _ hall 0]
    dsimp only
    have hlen : 0 < (extract_labels g).length := by
      cases hterm : extract_labels g with
      | nil => rw [hterm] at he; simp at he
      | cons a as => simp [hterm]
    rw [if_pos (by omega)]
    congr 1
    rw [Nat.zero_add]
    rw [div_eq_one_iff_eq (Nat.cast_ne_zero.mpr (by omega))]
    push_cast
    ring

theorem spec_greedy_le : ∀ (ls pool : List String),
    spec_greedy ls pool ≤ ls.length ∧ spec_greedy ls pool ≤ pool.length := by
  intro ls
  induction ls with
  | nil => intro pool; simp [spec_greedy]
  | cons a rest ih =>
    intro pool
    simp only [spec_greedy]
    cases h : spec_best (token_set_ratio a) pool with
    | none =>
      have := ih pool
      simp only [List.length_cons]
      omega
    | some p =>
      obtain ⟨j, v⟩ := p
      dsimp only
      by_cases hv : (80:Int) ≤ v
      · rw [if_pos hv]
        have hj := spec_best_index_lt h
        have hlen : (pool.eraseIdx j).length + 1 = pool.length :=
          List.length_eraseIdx_add_one hj
        have := ih (pool.eraseIdx j)
        simp only [List.length_cons]
        omega
      · rw [if_neg hv]
        have := ih pool
        simp only [List.length_cons]
        omega

theorem spec_graph_score_bounds (g1 g2 : PyVal) :
    0 ≤ spec_graph_score g1 g2 ∧ spec_graph_score g1 g2 ≤ 1 := by
  unfold spec_graph_score
  dsimp only
  by_cases h1 : (spec_labels g1).isEmpty
  · by_cases h2 : (spec_labels g2).isEmpty
    · rw [if_pos ⟨h1, h2⟩]
      norm_num
    · rw [if_neg (by tauto), if_pos (Or.inl h1)]
      norm_num
  · rw [if_neg (by tauto)]
    by_cases h2 : (spec_labels g2).isEmpty
    · rw [if_pos (Or.inr h2)]
      norm_num
    · rw [if_neg (by tauto)]
      have hApos : 0 < (spec_labels g1).length := by
        cases hterm : spec_labels g1 with
        | nil => rw [hterm] at h1; simp at h1
        | cons a as => simp [hterm]
      have hm := spec_greedy_le (spec_labels g1) (spec_labels g2)
      have hden : (0:ℚ) < (((spec_labels g1).length + (spec_labels g2).length : Nat) : ℚ) := by
        exact_mod_cast (by omega : 0 < (spec_labels g1).length + (spec_labels g2).length)
      constructor
      · apply div_nonneg _ hden.le
        positivity
      · rw [div_le_one hden]
        have hle : 2 * spec_greedy (spec_labels g1) (spec_labels g2)
            ≤ (spec_labels g1).length + (spec_labels g2).length := by omega
        calc 2 * (spec_greedy (spec_labels g1) (spec_labels g2) : ℚ)
            = ((2 * spec_greedy (spec_labels g1) (spec_labels g2) : Nat) : ℚ) := by
              push_cast; ring
          _ ≤ (((spec_labels g1).length + (spec_labels g2).length : Nat) : ℚ) := by
              exact_mod_cast hle

theorem tfidfCosineScore_bounds (s1 s2 : String) :
    0 ≤ tfidfCosineScore s1 s2 ∧ tfidfCosineScore s1 s2 ≤ 1 := by
  unfold tfidfCosineScore
  dsimp only
  split
  · split <;> norm_num
  · split
    · split <;> norm_num
    · constructor
      · exact le_max_left 0 _
      · exact max_le (by norm_num) (min_le_left 1 _)

theorem similarity_ok_bounds {t1 t2 : PyVal} {r : ℝ}
    (h : calculate_semantic_similarity t1 t2 = .ok r) : 0 ≤ r ∧ r ≤ 1 := by
  unfold calculate_semantic_similarity at h
  split at h
  · obtain rfl : (0:ℝ) = r := by injection h
    norm_num
  · split at h
    · split at h
      · obtain rfl : (0:ℝ) = r := by injection h
        norm_num
      · split at h
        · obtain rfl : (0:ℝ) = r := by injection h
          norm_num
        · split at h
          · split at h
            · obtain rfl : (0:ℝ) = r := by injection h
              norm_num
            · have heq := Except.ok.inj h
              subst heq
              exact tfidfCosineScore_bounds _ _
          · exact absurd h (by simp)
    · exact absurd h (by simp)

theorem similarity_str_ok (s1 s2 : String) :
    ∃ r, calculate_semantic_similarity (PyVal.str s1) (PyVal.str s2) = .ok r := by
  unfold calculate_semantic_similarity
  dsimp only
  split
  · exact ⟨0, rfl⟩
  · split
    · exact ⟨0, rfl⟩
    · split
      · exact ⟨0, rfl⟩
      · split
        · exact ⟨0, rfl⟩
        · exact ⟨_, rfl⟩

theorem compare_component_eq_zero_or_one (c1 c2 : PyVal) :
    compare_component c1 c2 = 0 ∨ compare_component c1 c2 = 1 := by
  unfold compare_component
  rcases c1 with _ | s | xs | kvs1 <;> rcases c2 with _ | s2 | ys | kvs2 <;>
    first
      | exact Or.inl rfl
      | (dsimp only; split_ifs <;> simp)

theorem if_one_zero_bounds (c : Prop) [Decidable c] :
    0 ≤ (if c then (1:ℝ) else 0) ∧ (if c then (1:ℝ) else 0) ≤ 1 := by
  split <;> norm_num

theorem compare_root_cause_bounds {a g : PyVal} {r : ℝ}
    (h : ResultComparator.compare_root_cause a g = .ok r) : 0 ≤ r ∧ r ≤ 1 := by
  unfold ResultComparator.compare_root_cause at h
  split at h
  · dsimp only at h
    rename_i akvs gkvs
    split at h
    · rename_i d hd
      have heq := Except.ok.inj h
      subst heq
      have h1 := if_one_zero_bounds
        (dictGet akvs "type" = dictGet gkvs "type" ∧ dictGet akvs "type" ≠ PyVal.none)
      have h2 := if_one_zero_bounds
        (dictGet akvs "resource_type" = dictGet gkvs "resource_type"
          ∧ dictGet akvs "resource_type" ≠ PyVal.none)
      have h3 : 0 ≤ compare_component (dictGet akvs "component") (dictGet gkvs "component")
          ∧ compare_component (dictGet akvs "component") (dictGet gkvs "component") ≤ 1 := by
        rcases compare_component_eq_zero_or_one (dictGet akvs "component")
          (dictGet gkvs "component") with h | h <;> rw [h] <;> norm_num
      have h4 := similarity_ok_bounds hd
      constructor <;> nlinarith [h1.1, h1.2, h2.1, h2.2, h3.1, h3.2, h4.1, h4.2]
    · exact absurd h (by simp)
  · exact absurd h (by simp)

theorem compare_resolution_bounds {a g : PyVal} {r : ℝ}
    (h : ResultComparator.compare_resolution a g = .ok r) : 0 ≤ r ∧ r ≤ 1 := by
  unfold ResultComparator.compare_resolution at h
  split at h
  · dsimp only at h
    rename_i akvs gkvs
    split at h
    · rename_i d hd
      have heq := Except.ok.inj h
      subst heq
      have h1 := if_one_zero_bounds
        (dictGet akvs "action_type" = dictGet gkvs "action_type"
          ∧ dictGet akvs "action_type" ≠ PyVal.none)
      have h3 : 0 ≤ compare_component (dictGet akvs "target_component")
            (dictGet gkvs "target_component")
          ∧ compare_component (dictGet akvs "target_component")
            (dictGet gkvs "target_component") ≤ 1 := by
        rcases compare_component_eq_zero_or_one (dictGet akvs "target_component")
          (dictGet gkvs "target_component") with h | h <;> rw [h] <;> norm_num
      have h4 := similarity_ok_bounds hd
      constructor <;> nlinarith [h1.1, h1.2, h3.1, h3.2, h4.1, h4.2]
    · exact absurd h (by simp)
  · exact absurd h (by simp)

theorem compare_ok_bounds {ao gtd : List (String × PyVal)} {rm : ScoreMap}
    (h : ResultComparator.compare ao gtd = .ok rm) :
    (0 ≤ rm.rca_root_cause_score ∧ rm.rca_root_cause_score ≤ 1) ∧
    (0 ≤ rm.rca_causal_graph_score ∧ rm.rca_causal_graph_score ≤ 1) ∧
    (0 ≤ rm.resolution_correctness_score ∧ rm.resolution_correctness_score ≤ 1) := by
  unfold ResultComparator.compare at h
  dsimp only at h
  cases hrc : ResultComparator.compare_root_cause (dictGetD ao "root_cause" (PyVal.dict []))
      (dictGetD gtd "root_cause" (PyVal.dict [])) with
  | error e => rw [hrc] at h; exact absurd h (by simp)
  | ok rc =>
    rw [hrc] at h
    dsimp only at h
    cases hres : ResultComparator.compare_resolution (dictGetD ao "resolution" (PyVal.dict []))
        (dictGetD gtd "resolution" (PyVal.dict [])) with
    | error e => rw [hres] at h; exact absurd h (by simp)
    | ok res =>
      rw [hres] at h
      dsimp only at h
      rw [show ∀ x y, ResultComparator.compare_causal_graph x y =
          calculate_causal_graph_score x y from fun _ _ => rfl] at h
      rw [causal_graph_score_eq_spec] at h
      dsimp only at h
      have heq := Except.ok.inj h
      subst heq
      dsimp only
      have hb := spec_graph_score_bounds (dictGetD ao "causal_graph" (PyVal.dict []))
        (dictGetD gtd "causal_graph" (PyVal.dict []))
      refine ⟨compare_root_cause_bounds hrc, ⟨?_, ?_⟩, compare_resolution_bounds hres⟩
      · exact_mod_cast hb.1
      · exact_mod_cast hb.2

theorem detailsOK_getD {kvs : List (String × PyVal)} (h : detailsOK kvs = true) :
    ∃ s, dictGetD kvs "details" (PyVal.str "") = PyVal.str s := by
  unfold detailsOK at h
  unfold dictGetD
  cases hl : pyLookup kvs "details" with
  | none => exact ⟨"", rfl⟩
  | some v =>
    rw [hl] at h
    cases v with
    | str s => exact ⟨s, rfl⟩
    | none => simp at h
    | list _ => simp at h
    | dict _ => simp at h

theorem sectionOK_getD {out : List (String × PyVal)} {key : String}
    (h : sectionOK out key = true) :
    ∃ kvs, dictGetD out key (PyVal.dict []) = PyVal.dict kvs ∧ detailsOK kvs = true := by
  unfold sectionOK at h
  unfold dictGetD
  cases hl : pyLookup out key with
  | none => exact ⟨[], rfl, rfl⟩
  | some v =>
    rw [hl] at h
    cases v with
    | dict kvs => exact ⟨kvs, rfl, h⟩
    | none => simp at h
    | str _ => simp at h
    | list _ => simp at h

theorem compare_root_cause_ok {akvs gkvs : List (String × PyVal)}
    (ha : detailsOK akvs = true) (hg : detailsOK gkvs = true) :
    ∃ r, ResultComparator.compare_root_cause (PyVal.dict akvs) (PyVal.dict gkvs) = .ok r := by
  unfold ResultComparator.compare_root_cause
  dsimp only
  obtain ⟨s1, hs1⟩ := detailsOK_getD ha
  obtain ⟨s2, hs2⟩ := detailsOK_getD hg
  rw [hs1, hs2]
  obtain ⟨r, hr⟩ := similarity_str_ok s1 s2
  rw [hr]
  exact ⟨_, rfl⟩

theorem compare_resolution_ok {akvs gkvs : List (String × PyVal)}
    (ha : detailsOK akvs = true) (hg : detailsOK gkvs = true) :
    ∃ r, ResultComparator.compare_resolution (PyVal.dict akvs) (PyVal.dict gkvs) = .ok r := by
  unfold ResultComparator.compare_resolution
  dsimp only
  obtain ⟨s1, hs1⟩ := detailsOK_getD ha
  obtain ⟨s2, hs2⟩ := detailsOK_getD hg
  rw [hs1, hs2]
  obtain ⟨r, hr⟩ := similarity_str_ok s1 s2
  rw [hr]
  exact ⟨_, rfl⟩

theorem compare_total {ao gtd : List (String × PyVal)}
    (ha : wellShaped ao = true) (hg : wellShaped gtd = true) :
    ∃ rm, ResultComparator.compare ao gtd = .ok rm := by
  unfold wellShaped at ha hg
  rw [Bool.and_eq_true] at ha hg
  obtain ⟨akvs, hae, had⟩ := sectionOK_getD ha.1
  obtain ⟨gkvs, hge, hgd⟩ := sectionOK_getD hg.1
  obtain ⟨akvs2, hae2, had2⟩ := sectionOK_getD ha.2
  obtain ⟨gkvs2, hge2, hgd2⟩ := sectionOK_getD hg.2
  unfold ResultComparator.compare
  dsimp only
  rw [hae, hge, hae2, hge2]
  obtain ⟨r1, hr1⟩ := compare_root_cause_ok had hgd
  rw [hr1]
  dsimp only
  obtain ⟨r2, hr2⟩ := compare_resolution_ok had2 hgd2
  rw [hr2]
  dsimp only
  rw [show ∀ x y, ResultComparator.compare_causal_graph x y =
      calculate_causal_graph_score x y from fun _ _ => rfl]
  rw [causal_graph_score_eq_spec]
  exact ⟨_, rfl⟩

theorem similarity_empty : calculate_semantic_similarity (PyVal.str "") (PyVal.str "") = .ok 0 := by
  unfold calculate_semantic_similarity
  rw [if_pos (by decide)]

theorem compare_root_cause_empty :
    ResultComparator.compare_root_cause (PyVal.dict []) (PyVal.dict []) = .ok 0 := by
  unfold ResultComparator.compare_root_cause
  dsimp only
  rw [show dictGetD ([] : List (String × PyVal)) "details" (PyVal.str "") = PyVal.str ""
    from rfl]
  rw [similarity_empty]
  dsimp only
  congr 1
  rw [if_neg (by decide), if_neg (by decide)]
  rw [show compare_component (dictGet [] "component") (dictGet [] "component") =
    compare_component PyVal.none PyVal.none from rfl]
  rw [show compare_component PyVal.none PyVal.none = 0 from rfl]
  norm_num

theorem compare_resolution_empty :
    ResultComparator.compare_resolution (PyVal.dict []) (PyVal.dict []) = .ok 0 := by
  unfold ResultComparator.compare_resolution
  dsimp only
  rw [show dictGetD ([] : List (String × PyVal)) "details" (PyVal.str "") = PyVal.str ""
    from rfl]
  rw [similarity_empty]
  dsimp only
  congr 1
  rw [if_neg (by decide)]
  rw [show compare_component (dictGet [] "target_component") (dictGet [] "target_component") =
    compare_component PyVal.none PyVal.none from rfl]
  rw [show compare_component PyVal.none PyVal.none = 0 from rfl]
  norm_num

theorem graph_empty :
    calculate_causal_graph_score (PyVal.dict []) (PyVal.dict []) = .ok 1 := by
  unfold calculate_causal_graph_score
  rw [if_pos (by decide)]

theorem compare_empty : ResultComparator.compare [] [] = .ok ⟨0, 1, 0⟩ := by
  unfold ResultComparator.compare
  dsimp only
  rw [show dictGetD ([] : List (String × PyVal)) "root_cause" (PyVal.dict []) = PyVal.dict []
    from rfl]
  rw [show dictGetD ([] : List (String × PyVal)) "resolution" (PyVal.dict []) = PyVal.dict []
    from rfl]
  rw [show dictGetD ([] : List (String × PyVal)) "causal_graph" (PyVal.dict []) = PyVal.dict []
    from rfl]
  rw [compare_root_cause_empty, compare_resolution_empty]
  dsimp only
  rw [show ∀ x y, ResultComparator.compare_causal_graph x y =
      calculate_causal_graph_score x y from fun _ _ => rfl]
  rw [graph_empty]
  dsimp only
  norm_num

theorem compare_component_empty_dicts : compare_component (PyVal.dict []) (PyVal.dict []) = 1 := by
  unfold compare_component
  dsimp only
  rw [if_neg (by decide), if_neg (by decide)]

theorem cosine_self {v : List ℝ} (h : 0 < dotR v v) : cosine_similarity v v = 1 := by
  unfold cosine_similarity
  have hs : Real.sqrt (dotR v v) ≠ 0 := by
    rw [Real.sqrt_ne_zero']
    exact h
  rw [if_neg (by tauto)]
  rw [Real.mul_self_sqrt h.le]
  exact div_self (ne_of_gt h)

theorem same_text_vocab : vocabulary "same text" "same text" =
    [['s','a','m','e'], ['t','e','x','t']] := by decide

theorem same_text_row : tfidfRow "same text" "same text" "same text" = [1, 1] := by
  unfold tfidfRow
  rw [same_text_vocab]
  have hidf : ∀ w, docFreq "same text" "same text" w = 2 →
      idfWeight "same text" "same text" w = 1 := by
    intro w hw
    unfold idfWeight
    rw [hw]
    norm_num [Real.log_one]
  simp only [List.map_cons, List.map_nil]
  rw [hidf ['s','a','m','e'] (by decide), hidf ['t','e','x','t'] (by decide)]
  rw [show ((sklearnTokens "same text").count ['s','a','m','e'] : ℝ) = 1 by norm_num [show (sklearnTokens "same text").count ['s','a','m','e'] = 1 from by decide]]
  rw [show ((sklearnTokens "same text").count ['t','e','x','t'] : ℝ) = 1 by norm_num [show (sklearnTokens "same text").count ['t','e','x','t'] = 1 from by decide]]
  norm_num

theorem tfidfCosineScore_same_text : tfidfCosineScore "same text" "same text" = 1 := by
  unfold tfidfCosineScore
  rw [if_neg (by decide)]
  dsimp only
  rw [if_neg (by norm_num)]
  have hdot : dotR (tfidfRow "same text" "same text" "same text")
      (tfidfRow "same text" "same text" "same text") = 2 := by
    rw [same_text_row]
    unfold dotR
    norm_num
  rw [cosine_self (by rw [hdot]; norm_num)]
  norm_num

theorem bestMatch_index_bounds {l : String} {pool : List String}
    (h : similarity_threshold ≤ (bestMatch l pool).1) :
    0 ≤ (bestMatch l pool).2 ∧ (bestMatch l pool).2 < (pool.length : Int) := by
  rw [bestMatch_spec] at h ⊢
  cases hs : spec_best (token_set_ratio l) pool with
  | none =>
    rw [hs] at h
    simp [similarity_threshold] at h
  | some p =>
    obtain ⟨j, v⟩ := p
    have hj := spec_best_index_lt hs
    dsimp only
    omega

theorem similarity_blank_is_zero : ∀ t1 t2 : PyVal,
    blankVal t1 = true ∨ (strOrNone t1 = true ∧ blankVal t2 = true) →
    calculate_semantic_similarity t1 t2 = .ok 0 := by
  intro t1 t2 h
  unfold calculate_semantic_similarity
  cases t1 with
  | none => rw [if_pos (by decide)]
  | list xs =>
    rcases h with h | ⟨h, _⟩ <;> simp [blankVal, strOrNone] at h
  | dict kvs =>
    rcases h with h | ⟨h, _⟩ <;> simp [blankVal, strOrNone] at h
  | str s1 =>
    by_cases h1 : s1 = ""
    · subst h1
      rw [if_pos (by decide)]
    · rw [if_neg (by simp [PyVal.truthy, h1])]
      dsimp only
      by_cases hb1 : strBlank s1
      · rw [if_pos hb1]
      · rw [if_neg hb1]
        have h2 : blankVal t2 = true := by
          rcases h with h | ⟨_, h⟩
          · simp [blankVal, hb1] at h
          · exact h
        cases t2 with
        | none => rw [if_pos (by decide)]
        | list xs => simp [blankVal] at h2
        | dict kvs => simp [blankVal] at h2
        | str s2 =>
          by_cases hs2 : s2 = ""
          · subst hs2
            rw [if_pos (by decide)]
          · rw [if_neg (by simp [PyVal.truthy, hs2])]
            dsimp only
            rw [if_pos (by simpa [blankVal] using h2)]

theorem compare_component_malformed_zero : ∀ c1 c2 : PyVal,
    ¬(c1.isDict = true ∧ c2.isDict = true) → compare_component c1 c2 = 0 := by
  intro c1 c2 h
  unfold compare_component
  cases c1 <;> cases c2 <;> first
    | rfl
    | exact absurd ⟨rfl, rfl⟩ h

/-- Claim C1: for every pair of input dictionaries on which
`ResultComparator.compare` returns, each of the three returned values
(`rca_root_cause_score`, `rca_causal_graph_score`,
`resolution_correctness_score`) lies in the closed interval [0, 1]. -/
theorem claim_C1_scores_bounded (ao gtd : List (String × PyVal)) (rm : ScoreMap)
    (h : ResultComparator.compare ao gtd = .ok rm) :
    (0 ≤ rm.rca_root_cause_score ∧ rm.rca_root_cause_score ≤ 1) ∧
    (0 ≤ rm.rca_causal_graph_score ∧ rm.rca_causal_graph_score ≤ 1) ∧
    (0 ≤ rm.resolution_correctness_score ∧ rm.resolution_correctness_score ≤ 1) :=
  compare_ok_bounds h

/-- Witness for C1: `compare({}, {})` returns the score map (0, 1, 0), and the
claim's bounds hold there. -/
theorem claim_C1_witness :
    ResultComparator.compare [] [] = .ok ⟨0, 1, 0⟩ ∧
    ((0 ≤ (0:ℝ) ∧ (0:ℝ) ≤ 1) ∧ (0 ≤ (1:ℝ) ∧ (1:ℝ) ≤ 1) ∧ (0 ≤ (0:ℝ) ∧ (0:ℝ) ≤ 1)) :=
  ⟨compare_empty, claim_C1_scores_bounded [] [] ⟨0, 1, 0⟩ compare_empty⟩

/-- Counterexample to C2: on an input whose `root_cause` section is a
(truthy) string rather than a mapping, `ResultComparator.compare` raises
`AttributeError` (from `agent_rc.get("type")`) instead of returning a score
map. -/
theorem claim_C2_counterexample :
    ResultComparator.compare [("root_cause", PyVal.str "x")] [] =
      .error "AttributeError" := rfl

/-- Claim C2 as amended: `ResultComparator.compare` returns a score map
(raises no exception) for every pair of input mappings whose `root_cause` and
`resolution` sections, when present, are mappings, and whose `details`
fields, when present, are strings; missing top-level sections and arbitrary
`causal_graph` values never raise. -/
theorem claim_C2_amended (ao gtd : List (String × PyVal))
    (ha : wellShaped ao = true) (hg : wellShaped gtd = true) :
    ∃ rm, ResultComparator.compare ao gtd = .ok rm :=
  compare_total ha hg

/-- Witness for C2 (amended): a concrete well-shaped input pair on which
`compare` returns. -/
theorem claim_C2_witness :
    wellShaped [("root_cause", PyVal.dict [("details", PyVal.str "x")])] = true ∧
    wellShaped [] = true ∧
    ∃ rm, ResultComparator.compare
      [("root_cause", PyVal.dict [("details", PyVal.str "x")])] [] = .ok rm :=
  ⟨by decide, by decide, claim_C2_amended _ _ (by decide) (by decide)⟩

/-- Claim C3: `calculate_causal_graph_score` returns (for every pair of
inputs, without raising) exactly the value of the specification's reference
algorithm: label extraction, empty-set policy, greedy fuzzy assignment with
threshold 80 and earliest-index tie-break, and the Dice-style score
`2 * match_count / (|A| + |B|)`. -/
theorem claim_C3_graph_score_refines_spec (g1 g2 : PyVal) :
    calculate_causal_graph_score g1 g2 = .ok (spec_graph_score g1 g2) :=
  causal_graph_score_eq_spec g1 g2

/-- Claim C4: on dict sections, `_compare_root_cause` returns exactly
`0.2*type_score + 0.2*resource_type_score + 0.3*component_score +
0.3*details_score` (with the exact-equality-and-non-null rule for
`type`/`resource_type`, the ComponentMatcher score for `component`, and the
text similarity of the `details` fields defaulted to the empty string), and
`_compare_resolution` follows the same pattern with weights
`action_type=0.3`, `target_component=0.4`, `details=0.3`. -/
theorem claim_C4_weighted_formulas (akvs gkvs : List (String × PyVal)) :
    (ResultComparator.compare_root_cause (PyVal.dict akvs) (PyVal.dict gkvs) =
      (calculate_semantic_similarity (dictGetD akvs "details" (PyVal.str ""))
          (dictGetD gkvs "details" (PyVal.str ""))).map
        (fun details_score =>
          0.2 * (if dictGet akvs "type" = dictGet gkvs "type"
                    ∧ dictGet akvs "type" ≠ PyVal.none then 1 else 0)
          + 0.2 * (if dictGet akvs "resource_type" = dictGet gkvs "resource_type"
                    ∧ dictGet akvs "resource_type" ≠ PyVal.none then 1 else 0)
          + 0.3 * compare_component (dictGet akvs "component") (dictGet gkvs "component")
          + 0.3 * details_score)) ∧
    (ResultComparator.compare_resolution (PyVal.dict akvs) (PyVal.dict gkvs) =
      (calculate_semantic_similarity (dictGetD akvs "details" (PyVal.str ""))
          (dictGetD gkvs "details" (PyVal.str ""))).map
        (fun details_score =>
          0.3 * (if dictGet akvs "action_type" = dictGet gkvs "action_type"
                    ∧ dictGet akvs "action_type" ≠ PyVal.none then 1 else 0)
          + 0.4 * compare_component (dictGet akvs "target_component")
              (dictGet gkvs "target_component")
          + 0.3 * details_score)) := by
  constructor
  · unfold ResultComparator.compare_root_cause
    dsimp only
    cases h : calculate_semantic_similarity (dictGetD akvs "details" (PyVal.str ""))
        (dictGetD gkvs "details" (PyVal.str "")) with
    | ok d => rfl
    | error e => rfl
  · unfold ResultComparator.compare_resolution
    dsimp only
    cases h : calculate_semantic_similarity (dictGetD akvs "details" (PyVal.str ""))
        (dictGetD gkvs "details" (PyVal.str "")) with
    | ok d => rfl
    | error e => rfl

/-- Counterexample to C5: two structured records with `kind` and `name` both
absent match with score 1.0 (Python compares `None == None`), not 0.0 as the
claim states. -/
theorem claim_C5_counterexample :
    compare_component (PyVal.dict []) (PyVal.dict []) = 1 ∧
    compare_component (PyVal.dict []) (PyVal.dict []) ≠ 0 := by
  refine ⟨compare_component_empty_dicts, ?_⟩
  rw [compare_component_empty_dicts]
  norm_num

/-- Claim C5 as amended: `compare_component` never raises; when either
argument is not a structured record the result is 0.0; records lacking the
expected keys are compared with the missing keys as `None`, so two records
with `kind` and `name` both absent (and no namespaces) yield 1.0. -/
theorem claim_C5_amended :
    (∀ c1 c2 : PyVal, ¬(c1.isDict = true ∧ c2.isDict = true) →
      compare_component c1 c2 = 0) ∧
    compare_component (PyVal.dict []) (PyVal.dict []) = 1 :=
  ⟨compare_component_malformed_zero, compare_component_empty_dicts⟩

/-- Witness for C5 (amended): a concrete non-record argument pair scoring
0.0. -/
theorem claim_C5_witness :
    ¬((PyVal.none).isDict = true ∧ (PyVal.str "x").isDict = true) ∧
    compare_component PyVal.none (PyVal.str "x") = 0 :=
  ⟨by decide, claim_C5_amended.1 PyVal.none (PyVal.str "x") (by decide)⟩

/-- Claim C6: `compare({}, {})` returns, without raising, a score map with
`rca_causal_graph_score = 1.0` (vacuous match) and `rca_root_cause_score =
resolution_correctness_score = 0.0`. -/
theorem claim_C6_compare_empty :
    ResultComparator.compare [] [] = .ok ⟨0, 1, 0⟩ :=
  compare_empty

/-- Counterexample to C7: with the second input empty, a truthy non-string
first input makes `calculate_semantic_similarity` raise `AttributeError`
(from `text1.strip()`) instead of returning 0.0, so the result is not 0.0
for every value of the other input. -/
theorem claim_C7_counterexample :
    calculate_semantic_similarity (PyVal.list [PyVal.none]) (PyVal.str "") =
      .error "AttributeError" := rfl

/-- Claim C7 as amended: `calculate_semantic_similarity` returns 0.0 (with
no exception) whenever the first input is absent, empty or whitespace-only
(for every value of the second input), and whenever the second input is
absent, empty or whitespace-only provided the first is a string or absent. -/
theorem claim_C7_amended : ∀ t1 t2 : PyVal,
    blankVal t1 = true ∨ (strOrNone t1 = true ∧ blankVal t2 = true) →
    calculate_semantic_similarity t1 t2 = .ok 0 :=
  similarity_blank_is_zero

/-- Witness for C7 (amended): the whitespace-only first input "   " against
the non-empty string "x" scores 0.0. -/
theorem claim_C7_witness :
    (blankVal (PyVal.str "   ") = true ∨
      (strOrNone (PyVal.str "   ") = true ∧ blankVal (PyVal.str "x") = true)) ∧
    calculate_semantic_similarity (PyVal.str "   ") (PyVal.str "x") = .ok 0 :=
  ⟨Or.inl (by decide), claim_C7_amended _ _ (Or.inl (by decide))⟩

/-- Claim C8: `calculate_semantic_similarity` applied to two copies of the
non-degenerate string "same text" returns exactly 1.0 (the two tf-idf rows
coincide, so their cosine similarity is 1). -/
theorem claim_C8_identical_text :
    calculate_semantic_similarity (PyVal.str "same text") (PyVal.str "same text") =
      .ok 1 := by
  unfold calculate_semantic_similarity
  rw [if_neg (by decide)]
  dsimp only
  rw [if_neg (by decide), if_neg (by decide)]
  rw [if_neg (by decide)]
  rw [tfidfCosineScore_same_text]

/-- Claim C9: `calculate_causal_graph_score` is reflexive on graphs all of
whose extracted labels contain at least one alphanumeric character: the
greedy loop matches every agent label with its own copy (fuzzy ratio 100,
earliest index), so the Dice score is 1. -/
theorem claim_C9_reflexive (g : PyVal)
    (h : ∀ l ∈ extract_labels g, l.data.any Char.isAlphanum = true) :
    calculate_causal_graph_score g g = .ok 1 :=
  graph_score_self h

/-- Witness for C9: a concrete two-node graph compared with itself scores
1. -/
theorem claim_C9_witness :
    (∀ l ∈ extract_labels (PyVal.dict [("nodes", PyVal.list
        [PyVal.dict [("label", PyVal.str "db down")],
         PyVal.dict [("label", PyVal.str "high load")]])]),
      l.data.any Char.isAlphanum = true) ∧
    calculate_causal_graph_score
      (PyVal.dict [("nodes", PyVal.list
        [PyVal.dict [("label", PyVal.str "db down")],
         PyVal.dict [("label", PyVal.str "high load")]])])
      (PyVal.dict [("nodes", PyVal.list
        [PyVal.dict [("label", PyVal.str "db down")],
         PyVal.dict [("label", PyVal.str "high load")]])]) = .ok 1 :=
  ⟨by decide, claim_C9_reflexive _ (by decide)⟩

/-- Claim C10: whenever the greedy loop's best score reaches the threshold,
the recorded best index is a valid index into the remaining pool (so the
`del` of `calculate_causal_graph_score` is always in bounds), and the whole
function is total: it returns `.ok` on every pair of inputs. -/
theorem claim_C10_del_in_bounds :
    (∀ (l : String) (pool : List String),
        similarity_threshold ≤ (bestMatch l pool).1 →
        0 ≤ (bestMatch l pool).2 ∧ (bestMatch l pool).2 < (pool.length : Int)) ∧
    (∀ g1 g2 : PyVal, ∃ q, calculate_causal_graph_score g1 g2 = .ok q) :=
  ⟨fun _ _ h => bestMatch_index_bounds h,
   fun g1 g2 => ⟨_, causal_graph_score_eq_spec g1 g2⟩⟩

/-- Witness for C10: on the concrete pool ["db down"] the best match for
"db down" reaches the threshold and its index is in bounds. -/
theorem claim_C10_witness :
    similarity_threshold ≤ (bestMatch "db down" ["db down"]).1 ∧
    (0 ≤ (bestMatch "db down" ["db down"]).2 ∧
      (bestMatch "db down" ["db down"]).2 < ((["db down"] : List String).length : Int)) :=
  ⟨by decide, claim_C10_del_in_bounds.1 "db down" ["db down"] (by decide)⟩
